import Mathlib

/-!
Verification of the transcribee pipeline (src/index.ts) against its design
specification. The TypeScript source is shallowly embedded: pure functions
become Lean functions over `List`/`String`, JavaScript truthiness of optional
fields is made explicit via `Option`, and the filesystem walked by the library
reader is modelled as an inductive tree. Floating-point timestamps are carried
as `Float` values but never computed with.
-/

namespace Transcribee

/-! ## Data model (src/index.ts, `interface Word` / `SpeechToTextWordResponse`) -/

/-- Embeds `interface Word` (src/index.ts:43-49). The TS field `end` is a Lean
keyword, so it is named `endTime` here; `type` is one of `word`, `spacing`,
`punctuation`, or an open-ended provider string. -/
structure Word where
  text : String
  start : Float
  endTime : Float
  type : String
  speaker_id : String

/-- Embeds `interface SpeechToTextWordResponse` (src/index.ts:52-58): a raw
provider word-record whose fields other than `text` are optional. `text` is
declared required in the TS interface, but the normalizer still guards it with
`w.text || ''`, so a possibly-absent `text` is modelled here as well. -/
structure SpeechToTextWordResponse where
  text : Option String
  start : Option Float
  endTime : Option Float
  type : Option String
  speaker_id : Option String

/-! ## Token Normalizer (src/index.ts:528-534, inside `main`) -/

/-- JavaScript `v || dflt` on an optional string: absent or empty (falsy)
strings are replaced by the default. -/
def jsOrStr (v : Option String) (dflt : String) : String :=
  match v with
  | none => dflt
  | some s => if s = "" then dflt else s

/-- JavaScript `v || dflt` on an optional number: absent values are replaced
by the default. (JS additionally maps `NaN` and `0` to the default; for `0`
that is the same result, and no claim depends on `NaN`.) -/
def jsOrFloat (v : Option Float) (dflt : Float) : Float :=
  match v with
  | none => dflt
  | some x => x

/-- Embeds the per-record body of `resp.words.map((w) => ({...}))`
(src/index.ts:528-534). -/
def normalizeWord (w : SpeechToTextWordResponse) : Word :=
  { text := jsOrStr w.text ""
  , start := jsOrFloat w.start 0
  , endTime := jsOrFloat w.endTime 0
  , type := jsOrStr w.type "word"
  , speaker_id := jsOrStr w.speaker_id "unknown" }

/-- Embeds `resp.words.map(...)` (src/index.ts:528): one-to-one map, no
reordering, no filtering. -/
def normalizeWords (ws : List SpeechToTextWordResponse) : List Word :=
  ws.map normalizeWord

/-! ## Transcript Assembler (src/index.ts:433-463, `wordsToTranscript`) -/

/-- Character class of the JavaScript regex `\s` (whitespace), as used by
`.replace(/\s+([.,!?;:])/g, '$1')` in `wordsToTranscript`. -/
def isJsSpace (c : Char) : Bool :=
  c = ' ' || c = '\t' || c = '\n' || c = '\u000B' || c = '\u000C' || c = '\r' ||
  c = '\u00A0' || c = '\u1680' || ('\u2000' ≤ c && c ≤ '\u200A') ||
  c = '\u2028' || c = '\u2029' || c = '\u202F' || c = '\u205F' ||
  c = '\u3000' || c = '\uFEFF'

/-- The punctuation class `[.,!?;:]` of the same regex. -/
def isHugPunct (c : Char) : Bool :=
  c = '.' || c = ',' || c = '!' || c = '?' || c = ';' || c = ':'

/-- True when the next non-whitespace character of `cs` exists and is one of
the hugging punctuation characters. -/
def punctAfterSpaces (cs : List Char) : Bool :=
  match cs.dropWhile isJsSpace with
  | [] => false
  | p :: _ => isHugPunct p

/-- Embeds `.replace(/\s+([.,!?;:])/g, '$1')` (src/index.ts:442): every
maximal whitespace run immediately followed by a hugging punctuation character
is deleted; equivalently (and structurally recursive), a whitespace character
is dropped exactly when the next non-whitespace character is hugging
punctuation. -/
def collapseWsPunct : List Char → List Char
  | [] => []
  | c :: rest =>
    if isJsSpace c && punctAfterSpaces rest then collapseWsPunct rest
    else c :: collapseWsPunct rest

/-- `collapseWsPunct` lifted to `String`. -/
def collapseStr (s : String) : String :=
  String.mk (collapseWsPunct s.data)

/-- The line pushed by `flush` (src/index.ts:442):
`` `${currentSpeaker}: ${currentSentence.join(' ').replace(/\s+([.,!?;:])/g, '$1')}` ``. -/
def mkLine (currentSpeaker : String) (currentSentence : List String) : String :=
  currentSpeaker ++ ": " ++ collapseStr (String.intercalate " " currentSentence)

/-- Embeds `flush` (src/index.ts:440-445): push a line only when the current
sentence is non-empty. -/
def flushLines (currentSpeaker : String) (currentSentence lines : List String) :
    List String :=
  if currentSentence = [] then lines else lines ++ [mkLine currentSpeaker currentSentence]

/-- The per-token sentence update (src/index.ts:454-458): spacing tokens are
skipped, all other tokens contribute their text. -/
def nextSentence (currentSentence : List String) (w : Word) : List String :=
  if w.type ≠ "spacing" then currentSentence ++ [w.text] else currentSentence

/-- Embeds the `for (const token of words)` loop plus the trailing `flush()`
of `wordsToTranscript` (src/index.ts:447-461), with the mutable
`currentSpeaker` / `currentSentence` / `lines` state passed explicitly. -/
def wtLoop : List Word → String → List String → List String → List String
  | [], currentSpeaker, currentSentence, lines =>
      flushLines currentSpeaker currentSentence lines
  | w :: ws, currentSpeaker, currentSentence, lines =>
      if w.speaker_id ≠ currentSpeaker then
        wtLoop ws w.speaker_id (nextSentence [] w)
          (flushLines currentSpeaker currentSentence lines)
      else
        wtLoop ws currentSpeaker (nextSentence currentSentence w) lines

/-- The list of lines accumulated by `wordsToTranscript` before the final
`lines.join('\n')`. -/
def wtLines : List Word → List String
  | [] => []
  | w :: ws => wtLoop (w :: ws) w.speaker_id [] []

/-- Embeds `wordsToTranscript` (src/index.ts:433-463). The early
`if (!words.length) return ''` coincides with joining an empty line list. -/
def wordsToTranscript (words : List Word) : String :=
  String.intercalate "\n" (wtLines words)

/-! ### Specification-side description of the assembler (for the refinement
claims C1/C2). These definitions follow the spec's words — maximal
same-speaker runs — and are compared against the source-derived `wtLines`. -/

/-- A token "contributes text" when its kind is not `spacing` (spec §4.2). -/
def keepsText (w : Word) : Bool := decide (w.type ≠ "spacing")

/-- Maximal runs of consecutive tokens sharing one speaker id (spec §3
"Run"). -/
def groupRuns : List Word → List (List Word)
  | [] => []
  | w :: ws =>
    (w :: ws.takeWhile (fun x => x.speaker_id == w.speaker_id)) ::
      groupRuns (ws.dropWhile (fun x => x.speaker_id == w.speaker_id))
termination_by l => l.length
decreasing_by
  simp only [List.length_cons]
  have h : ∀ (l : List Word), (l.dropWhile (fun x => x.speaker_id == w.speaker_id)).length ≤ l.length := by
    intro l
    induction l with
    | nil => simp [List.dropWhile]
    | cons a t ih =>
      rw [List.dropWhile_cons]
      split
      · exact Nat.le_succ_of_le ih
      · simp
  exact Nat.lt_succ_of_le (h ws)

/-- The text fragments a run contributes (spacing tokens excluded). -/
def runFrags (r : List Word) : List String :=
  (r.filter keepsText).map Word.text

/-- The line a maximal run produces according to the spec: `speakerId: joined
text`, or no line when the run contributes no text. -/
def runLine : List Word → Option String
  | [] => none
  | w :: r =>
    if runFrags (w :: r) = [] then none
    else some (mkLine w.speaker_id (runFrags (w :: r)))

/-- The spec-side line sequence: one line per maximal run that contributes
text. -/
def specLines (ws : List Word) : List String :=
  (groupRuns ws).filterMap runLine

/-! ## Library data model (src/index.ts:60-84) -/

/-- Embeds `interface ThemeClassification` (src/index.ts:60-66); the
`confidence` union `'high' | 'medium' | 'low'` is carried as a string. -/
structure ThemeClassification where
  primaryTheme : String
  subTheme : String
  folderName : String
  confidence : String
  summary : String

/-- Embeds `interface TranscriptMetadata` (src/index.ts:68-76). -/
structure TranscriptMetadata where
  sourceUrl : String
  title : String
  date : String
  theme : ThemeClassification
  language : Option String
  confidence : Option Float
  wordsDetected : Option Nat

/-- Embeds `interface FolderNode` (src/index.ts:78-84): a single record with a
`type` discriminator string and optional `children` / `metadata` fields, just
as in the source (no tagged variant). -/
inductive FolderNode where
  | mk (name : String) (path : String) (type : String)
      (children : Option (List FolderNode))
      (metadata : Option TranscriptMetadata)

def FolderNode.name : FolderNode → String
  | .mk n _ _ _ _ => n

def FolderNode.path : FolderNode → String
  | .mk _ p _ _ _ => p

def FolderNode.type : FolderNode → String
  | .mk _ _ t _ _ => t

def FolderNode.children : FolderNode → Option (List FolderNode)
  | .mk _ _ _ c _ => c

def FolderNode.metadata : FolderNode → Option TranscriptMetadata
  | .mk _ _ _ _ m => m

/-! ## Library Reader (src/index.ts:150-217) -/

/-- A filesystem tree: the directory entries `fs.readdir` would report. Only
the two entry kinds the reader distinguishes (plain file, directory) are
modelled. -/
inductive FsTree where
  | file (name : String) (content : String)
  | dir (name : String) (entries : List FsTree)

/-- Models `fs.readFile(path.join(fullPath, 'metadata.json'), 'utf8')`:
the content of the uniquely-named entry when it is a plain file, `none` when
the entry is absent or is itself a directory (both raise in JS and are caught
by the surrounding `try`). -/
def readFileIn (entries : List FsTree) (fname : String) : Option String :=
  match entries with
  | [] => none
  | .file n c :: rest => if n = fname then some c else readFileIn rest fname
  | .dir n _ :: rest => if n = fname then none else readFileIn rest fname

/-- Embeds `readDir` (src/index.ts:166-208). `parse` abstracts
`JSON.parse` into `TranscriptMetadata` (a thrown parse error, or a parse to a
falsy value, is `none` — both leave `metadata` unset in the source). Plain
files are skipped; a directory whose `metadata.json` parses becomes a
`transcript` node; any other directory becomes a `folder` node whose children
are read recursively. -/
def readDir (parse : String → Option TranscriptMetadata) :
    List FsTree → String → List FolderNode
  | [], _ => []
  | .file _ _ :: rest, relativePath => readDir parse rest relativePath
  | .dir name dentries :: rest, relativePath =>
    let relPath := if relativePath ≠ "" then relativePath ++ "/" ++ name else name
    match (readFileIn dentries "metadata.json").bind parse with
    | some m =>
      FolderNode.mk name relPath "transcript" none (some m)
        :: readDir parse rest relativePath
    | none =>
      FolderNode.mk name relPath "folder" (some (readDir parse dentries relPath)) none
        :: readDir parse rest relativePath

/-- Embeds `readLibraryStructure` (src/index.ts:150-217). The archive root is
modelled as `none` when the base directory does not exist (the `fs.access`
catch branch) and `some entries` otherwise. -/
def readLibraryStructure (parse : String → Option TranscriptMetadata)
    (baseDir : String) (root : Option (List FsTree)) : FolderNode :=
  match root with
  | none => FolderNode.mk "transcripts" baseDir "folder" (some []) none
  | some entries =>
    FolderNode.mk "transcripts" baseDir "folder" (some (readDir parse entries "")) none

/-! ## Tree Summarizer (src/index.ts:222-239, `folderTreeToString`) -/

/-- JavaScript `s.split('\n')` on the character list of `s`: the (possibly
empty) pieces between newline separators; the empty string yields `[""]`. -/
def splitNl : List Char → List String
  | [] => [""]
  | c :: rest =>
    if c = '\n' then "" :: splitNl rest
    else
      match splitNl rest with
      | [] => [String.mk [c]]
      | s :: ss => String.mk (c :: s.data) :: ss

mutual

/-- Embeds `folderTreeToString` (src/index.ts:222-239): transcript nodes with
metadata render three lines (marker, stored summary, theme path); folder nodes
render a marker line — suppressed for the root, whose `indent` is the empty
(falsy) string — followed by their children's lines. -/
def folderTreeToString : FolderNode → String → String
  | .mk name _ ty childrenOpt metadataOpt, indent =>
    let lines : List String :=
      if ty = "transcript" ∧ metadataOpt.isSome then
        match metadataOpt with
        | some m =>
          [ indent ++ "📄 " ++ name
          , indent ++ "   Summary: " ++ m.theme.summary
          , indent ++ "   Theme: " ++ m.theme.primaryTheme ++ " > " ++ m.theme.subTheme ]
        | none => []
      else if ty = "folder" then
        (if indent ≠ "" then [indent ++ "📁 " ++ name ++ "/"] else []) ++
        (match childrenOpt with
         | some cs => childLines cs (indent ++ "  ")
         | none => [])
      else []
    String.intercalate "\n" lines

/-- The `for (const child of node.children)` body (src/index.ts:232-234):
each child is rendered with the incremented indent, split into lines, and
empty lines are dropped (`.split('\n').filter(Boolean)`). -/
def childLines : List FolderNode → String → List String
  | [], _ => []
  | c :: cs, childIndent =>
    ((splitNl (folderTreeToString c childIndent).data).filter (fun l => l ≠ ""))
      ++ childLines cs childIndent

end

/-! ## Token estimation and truncation (src/index.ts:244-271) -/

/-- Embeds `estimateTokens` (src/index.ts:244-246): `Math.ceil(length / 4)`
(exact for the integer lengths involved). -/
def estimateTokens (text : String) : Nat :=
  (text.length + 3) / 4

/-- JavaScript `String.prototype.slice` index resolution: negative indices
count from the end (clamped at 0), non-negative ones are clamped to the
length. -/
def jsClamp (len : Nat) (i : Int) : Nat :=
  if i < 0 then ((len : Int) + i).toNat else min i.toNat len

/-- JavaScript `text.slice(a, b)` on a character list. -/
def jsSlice (cs : List Char) (a b : Int) : List Char :=
  (cs.take (jsClamp cs.length b)).drop (jsClamp cs.length a)

/-- The literal `\n\n[... middle section ...]\n\n` joiner of
`truncateTranscript`. -/
def midMarker : String := "\n\n[... middle section ...]\n\n"

/-- The literal `\n\n[... later section ...]\n\n` joiner of
`truncateTranscript`. -/
def laterMarker : String := "\n\n[... later section ...]\n\n"

/-- Embeds `truncateTranscript` (src/index.ts:252-271). `Math.floor(L/2 - c/2)`
and `Math.floor(L/2 + c/2)` are exactly `(L ∓ c).fdiv 2` (halves of integers
are exact doubles), and `text.slice(-chunkSize)` is `jsSlice` from
`-chunkSize` to the length. -/
def truncateTranscript (text : String) (maxTokens : Nat) : String :=
  if estimateTokens text ≤ maxTokens then text
  else
    let cs := text.data
    let targetChars := maxTokens * 4
    let chunkSize := targetChars / 3
    let beginning := jsSlice cs 0 (chunkSize : Int)
    let middle := jsSlice cs (((cs.length : Int) - (chunkSize : Int)).fdiv 2)
                             (((cs.length : Int) + (chunkSize : Int)).fdiv 2)
    let endPart := jsSlice cs (-(chunkSize : Int)) (cs.length : Int)
    String.mk (beginning ++ midMarker.data ++ middle ++ laterMarker.data ++ endPart)

/-! ## Classifier prompt construction (src/index.ts:276-342,
`classifyAndOrganize`). Only the pure prompt-building prefix of the function
is embedded; the network call and response parsing that follow are external
effects. -/

/-- Embeds `libraryStructure.children && libraryStructure.children.length > 0`
(src/index.ts:288). -/
def hasExistingTranscripts (lib : FolderNode) : Bool :=
  match lib.children with
  | some cs => decide (0 < cs.length)
  | none => false

/-- The incremental prompt template (src/index.ts:291-320), with the library
digest (or its `(Empty - ...)` fallback) and processed transcript already
interpolated. -/
def incrementalPrompt (videoUrl videoTitle folderTreeDisplay processedTranscript : String) :
    String :=
  "You are maintaining a knowledge library of audio/video transcripts.\n\n" ++
  "SOURCE INFORMATION:\nURL: " ++ videoUrl ++ "\nTitle: " ++ videoTitle ++ "\n\n" ++
  "CURRENT LIBRARY STRUCTURE:\n" ++ folderTreeDisplay ++ "\n\n" ++
  "NEW TRANSCRIPT TO ORGANIZE:\n" ++ processedTranscript ++ "\n\n" ++
  "YOUR TASK:\n" ++
  "1. Analyze the new transcript\x27s content and main themes\n" ++
  "2. Review the existing library structure\n" ++
  "3. Decide the optimal SINGLE-LEVEL category folder for this transcript\n\n" ++
  "DECISION CRITERIA:\n" ++
  "- Use existing folders when semantically appropriate (similar content/theme)\n" ++
  "- Create new categories when the content doesn\x27t fit existing ones\n" ++
  "- Use kebab-case for folder names\n" ++
  "- Keep categories broad enough to group related content but specific enough to be meaningful\n" ++
  "- IMPORTANT: Use only ONE level of categorization (e.g., \"ai-podcasts\" not \"technology/ai/podcasts\")\n\n" ++
  "Respond with a JSON object (no markdown code blocks):\n" ++
  "\x7b\n" ++
  "  \"newTranscriptPath\": \"category-name\",\n" ++
  "  \"reasoning\": \"Explain why this category fits the content\",\n" ++
  "  \"confidence\": \"high/medium/low\"\n" ++
  "\x7d"

/-- The bootstrap (first-transcript) prompt template (src/index.ts:321-342). -/
def bootstrapPrompt (videoUrl videoTitle processedTranscript : String) : String :=
  "You are creating a knowledge library of audio/video transcripts.\n\n" ++
  "SOURCE INFORMATION:\nURL: " ++ videoUrl ++ "\nTitle: " ++ videoTitle ++ "\n\n" ++
  "TRANSCRIPT:\n" ++ processedTranscript ++ "\n\n" ++
  "This is the FIRST transcript in the library. Create an initial folder structure that:\n" ++
  "- Uses a SINGLE level of categorization\n" ++
  "- Is specific enough to be useful but not over-categorized\n" ++
  "- Uses kebab-case for folder names\n" ++
  "- Sets a good foundation for future organization\n" ++
  "- Example: \"ai-podcasts\" or \"business-interviews\" (NOT \"technology/ai/podcasts\")\n\n" ++
  "Respond with a JSON object (no markdown code blocks):\n" ++
  "\x7b\n" ++
  "  \"newTranscriptPath\": \"category-name\",\n" ++
  "  \"reasoning\": \"Explain why you chose this category\",\n" ++
  "  \"confidence\": \"high/medium/low\"\n" ++
  "\x7d"

/-- The prompt `classifyAndOrganize` sends (src/index.ts:282-342): truncate
the transcript (default ceiling 150000), render the library digest, and pick
the incremental variant exactly when the root has any children, else the
bootstrap variant. `folderTreeString || '(Empty ...)'` falls back on the empty
(falsy) string. -/
def classifyPrompt (transcript videoUrl videoTitle : String) (lib : FolderNode) : String :=
  let processedTranscript := truncateTranscript transcript 150000
  let folderTreeString := folderTreeToString lib ""
  if hasExistingTranscripts lib then
    incrementalPrompt videoUrl videoTitle
      (if folderTreeString = "" then "(Empty - this will be the first transcript)"
       else folderTreeString)
      processedTranscript
  else
    bootstrapPrompt videoUrl videoTitle processedTranscript

/-! ### Specification-side count of transcript entries (for claim C8). -/

mutual

/-- Modelled from the spec: the number of transcript entries contained in a
library tree ("whether any existing transcript entries exist", spec §4.5). -/
def transcriptCount : FolderNode → Nat
  | .mk _ _ ty ch _ =>
    (if ty = "transcript" then 1 else 0) + transcriptCountChildren ch

def transcriptCountChildren : Option (List FolderNode) → Nat
  | none => 0
  | some [] => 0
  | some (c :: cs) => transcriptCount c + transcriptCountChildren (some cs)

end

/-! ## Example inputs used by witnesses and counterexamples -/

/-- A record with every optional field absent. -/
def emptyRecord : SpeechToTextWordResponse :=
  { text := none, start := none, endTime := none, type := none, speaker_id := none }

/-- A record whose `type` and `speaker_id` are present but empty (falsy). -/
def falsyRecord : SpeechToTextWordResponse :=
  { text := some "x", start := none, endTime := none
  , type := some "", speaker_id := some "" }

/-- A single spacing token: one maximal run that contributes no text. -/
def spacingOnly : List Word :=
  [{ text := " ", start := 0, endTime := 0, type := "spacing", speaker_id := "A" }]

/-- The five-token end-to-end scenario of spec §8. -/
def fiveTokens : List Word :=
  [ { text := "Hello", start := 0, endTime := 0, type := "word", speaker_id := "A" }
  , { text := " ", start := 0, endTime := 0, type := "spacing", speaker_id := "A" }
  , { text := "world", start := 0, endTime := 0, type := "word", speaker_id := "A" }
  , { text := ".", start := 0, endTime := 0, type := "punctuation", speaker_id := "A" }
  , { text := "Hi", start := 0, endTime := 0, type := "word", speaker_id := "B" } ]

/-- A sample theme classification for concrete library examples. -/
def sampleTheme : ThemeClassification :=
  { primaryTheme := "ai-podcasts", subTheme := "ep1", folderName := "ai-podcasts"
  , confidence := "high", summary := "Discussion of AI safety" }

/-- A sample metadata record for concrete library examples. -/
def sampleMetadata : TranscriptMetadata :=
  { sourceUrl := "https://example.org/v", title := "ep1", date := "2026-10-11"
  , theme := sampleTheme, language := none, confidence := none, wordsDetected := none }

/-- A concrete metadata parser for witnesses: the content `"ok"` parses to
`sampleMetadata`, everything else is malformed. -/
def sampleParse : String → Option TranscriptMetadata :=
  fun s => if s = "ok" then some sampleMetadata else none

/-- Directory entries holding a valid metadata record. -/
def entriesWithMetadata : List FsTree :=
  [FsTree.file "metadata.json" "ok"]

/-- Directory entries holding a malformed metadata record. -/
def entriesWithBadMetadata : List FsTree :=
  [FsTree.file "metadata.json" "bad", FsTree.dir "inner" []]

/-- A transcript node as produced by the reader for concrete examples. -/
def sampleTranscriptNode : FolderNode :=
  FolderNode.mk "ep1" "ai-podcasts/ep1" "transcript" none (some sampleMetadata)

/-- A library whose root has one child, an empty category folder, and hence
zero transcript entries. -/
def libOneEmptyCategory : FolderNode :=
  FolderNode.mk "transcripts" "/t" "folder"
    (some [FolderNode.mk "empty-cat" "empty-cat" "folder" (some []) none]) none

/-- A library whose root directly holds one transcript entry. -/
def libOneTranscript : FolderNode :=
  FolderNode.mk "transcripts" "/t" "folder" (some [sampleTranscriptNode]) none

end Transcribee

namespace Transcribee

/-! # Theorems -/

/-! ## Helper lemmas -/

theorem flushLines_eq_append (sp : String) (sent lines : List String) :
    flushLines sp sent lines = lines ++ flushLines sp sent [] := by
  unfold flushLines
  split <;> simp

theorem wtLoop_eq_append (ws : List Word) :
    ∀ (sp : String) (sent lines : List String),
      wtLoop ws sp sent lines = lines ++ wtLoop ws sp sent [] := by
  induction ws with
  | nil =>
    intro sp sent lines
    simp only [wtLoop]
    exact flushLines_eq_append sp sent lines
  | cons w ws ih =>
    intro sp sent lines
    simp only [wtLoop]
    by_cases h : w.speaker_id = sp
    · rw [if_neg (by simp [h]), if_neg (by simp [h])]
      exact ih sp (nextSentence sent w) lines
    · rw [if_pos h, if_pos h,
        ih w.speaker_id (nextSentence [] w) (flushLines sp sent lines),
        ih w.speaker_id (nextSentence [] w) (flushLines sp sent []),
        flushLines_eq_append sp sent lines, List.append_assoc]

/-- Absorbing a whole same-speaker run into the current sentence. -/
theorem wtLoop_absorb_run (run : List Word) (sp : String)
    (hall : ∀ x ∈ run, x.speaker_id = sp) :
    ∀ (ws : List Word) (sent lines : List String),
      wtLoop (run ++ ws) sp sent lines = wtLoop ws sp (sent ++ runFrags run) lines := by
  induction run with
  | nil => intro ws sent lines; simp [runFrags]
  | cons w run ih =>
    intro ws sent lines
    have hw : w.speaker_id = sp := hall w (by simp)
    have hrest : ∀ x ∈ run, x.speaker_id = sp :=
      fun x hx => hall x (List.mem_cons_of_mem _ hx)
    rw [List.cons_append]
    simp only [wtLoop]
    rw [if_neg (by simp [hw]), ih hrest ws (nextSentence sent w) lines]
    congr 1
    by_cases ht : w.type = "spacing"
    · simp [nextSentence, runFrags, keepsText, ht, List.filter_cons]
    · simp [nextSentence, runFrags, keepsText, ht, List.filter_cons]

theorem dropWhile_length_le {α : Type} (p : α → Bool) (l : List α) :
    (l.dropWhile p).length ≤ l.length := by
  induction l with
  | nil => simp [List.dropWhile]
  | cons a t ih =>
    rw [List.dropWhile_cons]
    split
    · exact Nat.le_succ_of_le ih
    · simp

theorem dropWhile_head_false {α : Type} (p : α → Bool) (l : List α) (w : α)
    (t : List α) (h : l.dropWhile p = w :: t) : p w = false := by
  induction l with
  | nil => simp [List.dropWhile] at h
  | cons a l ih =>
    rw [List.dropWhile_cons] at h
    by_cases hp : p a = true
    · rw [if_pos hp] at h
      exact ih h
    · rw [if_neg hp] at h
      cases h
      simpa using hp

theorem runFrags_eq_nil_iff (r : List Word) :
    runFrags r = [] ↔ r.any keepsText = false := by
  induction r with
  | nil => simp [runFrags]
  | cons w t ih =>
    cases hk : keepsText w with
    | true => simp [runFrags, List.filter_cons, hk, List.any_cons]
    | false => simp [runFrags, List.filter_cons, hk, List.any_cons]

theorem runLine_isSome (r : List Word) :
    (runLine r).isSome = r.any keepsText := by
  cases r with
  | nil => simp [runLine]
  | cons w t =>
    by_cases hF : runFrags (w :: t) = []
    · rw [runLine, if_pos hF, Option.isSome_none, (runFrags_eq_nil_iff _).mp hF]
    · rw [runLine, if_neg hF, Option.isSome_some]
      cases h2 : (w :: t).any keepsText with
      | true => rfl
      | false => exact absurd ((runFrags_eq_nil_iff _).mpr h2) hF

theorem length_filterMap_runLine (l : List (List Word)) :
    (l.filterMap runLine).length = (l.filter (fun r => r.any keepsText)).length := by
  induction l with
  | nil => simp
  | cons r t ih =>
    rw [List.filterMap_cons, List.filter_cons]
    have hpt := runLine_isSome r
    cases hR : runLine r with
    | none =>
      rw [hR] at hpt
      simp only [Option.isSome_none] at hpt
      rw [if_neg (by simp [← hpt])]
      exact ih
    | some a =>
      rw [hR] at hpt
      simp only [Option.isSome_some] at hpt
      rw [if_pos (by simp [← hpt])]
      simpa using ih

/-- The central refinement: the imperative loop of `wordsToTranscript`
produces exactly the spec-side line sequence — one line per maximal
same-speaker run that contributes text. -/
theorem wtLines_eq_specLines (ws : List Word) : wtLines ws = specLines ws := by
  have key : ∀ (n : Nat) (ws : List Word), ws.length ≤ n → wtLines ws = specLines ws := by
    intro n
    induction n with
    | zero =>
      intro ws h
      have hnil : ws = [] := List.eq_nil_of_length_eq_zero (Nat.le_zero.mp h)
      subst hnil
      simp [wtLines, specLines, groupRuns]
    | succ n ih =>
      intro ws h
      cases ws with
      | nil => simp [wtLines, specLines, groupRuns]
      | cons w rest =>
        have hlen : rest.length ≤ n := by simpa using h
        have hGR : groupRuns (w :: rest) =
            (w :: rest.takeWhile (fun x => x.speaker_id == w.speaker_id)) ::
              groupRuns (rest.dropWhile (fun x => x.speaker_id == w.speaker_id)) := by
          rw [groupRuns]
        have hrun : ∀ x ∈ (w :: rest.takeWhile (fun x => x.speaker_id == w.speaker_id)),
            x.speaker_id = w.speaker_id := by
          intro x hx
          rcases List.mem_cons.mp hx with h1 | h2
          · rw [h1]
          · have hall := List.all_takeWhile (l := rest)
              (p := fun x => x.speaker_id == w.speaker_id)
            rw [List.all_eq_true] at hall
            exact beq_iff_eq.mp (hall x h2)
        have hsplit : w :: rest =
            (w :: rest.takeWhile (fun x => x.speaker_id == w.speaker_id)) ++
              rest.dropWhile (fun x => x.speaker_id == w.speaker_id) := by
          simp
        have hstart : wtLines (w :: rest) =
            wtLoop (rest.dropWhile (fun x => x.speaker_id == w.speaker_id)) w.speaker_id
              (runFrags (w :: rest.takeWhile (fun x => x.speaker_id == w.speaker_id))) [] := by
          show wtLoop (w :: rest) w.speaker_id [] [] = _
          conv_lhs => rw [hsplit]
          rw [wtLoop_absorb_run _ _ hrun]
          simp
        cases hcase : rest.dropWhile (fun x => x.speaker_id == w.speaker_id) with
        | nil =>
          rw [hstart, hcase]
          simp only [wtLoop]
          rw [specLines, hGR, hcase]
          simp only [groupRuns, List.filterMap_cons, List.filterMap_nil]
          by_cases hF : runFrags (w :: rest.takeWhile
              (fun x => x.speaker_id == w.speaker_id)) = []
          · rw [runLine, if_pos hF, flushLines, if_pos hF]
          · rw [runLine, if_neg hF, flushLines, if_neg hF, List.nil_append]
        | cons w2 rest3 =>
          have hw2 : w2.speaker_id ≠ w.speaker_id := by
            have := dropWhile_head_false _ _ _ _ hcase
            simpa using this
          have htail : wtLoop rest3 w2.speaker_id (nextSentence [] w2) [] =
              wtLines (w2 :: rest3) := by
            show _ = wtLoop (w2 :: rest3) w2.speaker_id [] []
            simp only [wtLoop]
            rw [if_neg (by simp)]
          have hlen2 : (w2 :: rest3).length ≤ n := by
            rw [← hcase]
            exact le_trans (dropWhile_length_le _ _) hlen
          rw [hstart, hcase]
          simp only [wtLoop]
          rw [if_pos hw2, wtLoop_eq_append, htail, ih _ hlen2]
          conv_rhs => rw [specLines, hGR, hcase]
          rw [List.filterMap_cons]
          by_cases hF : runFrags (w :: rest.takeWhile
              (fun x => x.speaker_id == w.speaker_id)) = []
          · rw [runLine, if_pos hF, flushLines, if_pos hF, List.nil_append]
            rfl
          · rw [runLine, if_neg hF, flushLines, if_neg hF, List.nil_append]
            rfl
  exact key ws.length ws (Nat.le_refl _)

/-! ## Claim theorems -/

/-- Claim C1 (amended): for every token sequence the Transcript Assembler
produces the ordered sequence of `speakerId: joined text` lines with exactly
one line per maximal same-speaker run that contains at least one non-spacing
token (spacing tokens contribute no text but do not break a run; a run
consisting solely of spacing tokens produces no line), and an empty token
sequence yields the empty string. -/
theorem c1_transcript_assembler :
    wordsToTranscript [] = "" ∧
    ∀ ws : List Word,
      wtLines ws = specLines ws ∧
      (wtLines ws).length =
        ((groupRuns ws).filter (fun r => r.any keepsText)).length ∧
      wordsToTranscript ws = String.intercalate "\n" (specLines ws) := by
  refine ⟨rfl, fun ws => ⟨wtLines_eq_specLines ws, ?_, ?_⟩⟩
  · rw [wtLines_eq_specLines ws, specLines, length_filterMap_runLine]
  · rw [wordsToTranscript, wtLines_eq_specLines ws]

/-- Claim C1, counterexample to the original statement: a single spacing token
forms one maximal same-speaker run, yet the assembler emits zero lines (the
claimed "exactly one output line per maximal run" fails). -/
theorem c1_counterexample :
    (groupRuns spacingOnly).length = 1 ∧
    (wtLines spacingOnly).length = 0 ∧
    wordsToTranscript spacingOnly = "" := by
  refine ⟨?_, ?_, ?_⟩
  · simp [spacingOnly, groupRuns]
  · rfl
  · rfl

/-- Claim C2: the five-token end-to-end scenario produces exactly
`A: Hello world.\nB: Hi` — fragments joined with single spaces, the space
before the punctuation collapsed, lines joined by a newline. -/
theorem c2_end_to_end_five_tokens :
    wordsToTranscript fiveTokens = "A: Hello world.\nB: Hi" := by
  decide

/-- Claim C3: the Token Normalizer maps every provider word-record sequence
one-to-one (equal length, identical order, no filtering or merging) to
tokens, substituting the defaults for missing fields. It is a total function
(never throws). -/
theorem c3_token_normalizer (ws : List SpeechToTextWordResponse) :
    (normalizeWords ws).length = ws.length ∧
    ∀ (i : Nat) (h : i < ws.length),
      (normalizeWords ws).get ⟨i, by simpa [normalizeWords] using h⟩ =
        normalizeWord (ws.get ⟨i, h⟩) ∧
      ((ws.get ⟨i, h⟩).text = none → (normalizeWord (ws.get ⟨i, h⟩)).text = "") ∧
      ((ws.get ⟨i, h⟩).start = none → (normalizeWord (ws.get ⟨i, h⟩)).start = 0) ∧
      ((ws.get ⟨i, h⟩).endTime = none → (normalizeWord (ws.get ⟨i, h⟩)).endTime = 0) ∧
      ((ws.get ⟨i, h⟩).type = none → (normalizeWord (ws.get ⟨i, h⟩)).type = "word") ∧
      ((ws.get ⟨i, h⟩).speaker_id = none →
        (normalizeWord (ws.get ⟨i, h⟩)).speaker_id = "unknown") := by
  refine ⟨by simp [normalizeWords], ?_⟩
  intro i h
  refine ⟨?_, ?_, ?_, ?_, ?_, ?_⟩
  · simp [normalizeWords]
  · intro ht; simp only [List.get_eq_getElem] at ht; simp [normalizeWord, jsOrStr, ht]
  · intro ht; simp only [List.get_eq_getElem] at ht; simp [normalizeWord, jsOrFloat, ht]
  · intro ht; simp only [List.get_eq_getElem] at ht; simp [normalizeWord, jsOrFloat, ht]
  · intro ht; simp only [List.get_eq_getElem] at ht; simp [normalizeWord, jsOrStr, ht]
  · intro ht; simp only [List.get_eq_getElem] at ht; simp [normalizeWord, jsOrStr, ht]

/-- Claim C3, witness: the all-absent record normalizes to every default. -/
theorem c3_witness :
    (normalizeWords [emptyRecord]).length = 1 ∧
    (normalizeWord emptyRecord).text = "" ∧
    (normalizeWord emptyRecord).start = 0 ∧
    (normalizeWord emptyRecord).endTime = 0 ∧
    (normalizeWord emptyRecord).type = "word" ∧
    (normalizeWord emptyRecord).speaker_id = "unknown" := by
  have h := c3_token_normalizer [emptyRecord]
  have h2 := h.2 0 (by decide)
  exact ⟨h.1, h2.2.1 rfl, h2.2.2.1 rfl, h2.2.2.2.1 rfl,
    h2.2.2.2.2.1 rfl, h2.2.2.2.2.2 rfl⟩

/-- Claim C5: a non-existent archive root yields a tree rooted at that path
with an empty children list, for any metadata parser, and without error (the
reader is a total function). -/
theorem c5_missing_root_empty_tree (parse : String → Option TranscriptMetadata)
    (baseDir : String) :
    readLibraryStructure parse baseDir none =
      FolderNode.mk "transcripts" baseDir "folder" (some []) none ∧
    (readLibraryStructure parse baseDir none).children = some [] ∧
    (readLibraryStructure parse baseDir none).path = baseDir ∧
    (readLibraryStructure parse baseDir none).type = "folder" :=
  ⟨rfl, rfl, rfl, rfl⟩

/-- Claim C10: normalization substitutes defaults for falsy values, not only
absent ones — a present-but-empty `type` or `speaker_id` becomes `word` /
`unknown`, so every normalized token has a nonempty type and speaker id. -/
theorem c10_falsy_defaults (w : SpeechToTextWordResponse) :
    (w.type = some "" → (normalizeWord w).type = "word") ∧
    (w.speaker_id = some "" → (normalizeWord w).speaker_id = "unknown") ∧
    (normalizeWord w).type ≠ "" ∧
    (normalizeWord w).speaker_id ≠ "" := by
  refine ⟨?_, ?_, ?_, ?_⟩
  · intro h; simp [normalizeWord, jsOrStr, h]
  · intro h; simp [normalizeWord, jsOrStr, h]
  · cases hw : w.type with
    | none => simp [normalizeWord, jsOrStr, hw]
    | some s => by_cases hs : s = "" <;> simp [normalizeWord, jsOrStr, hw, hs]
  · cases hw : w.speaker_id with
    | none => simp [normalizeWord, jsOrStr, hw]
    | some s => by_cases hs : s = "" <;> simp [normalizeWord, jsOrStr, hw, hs]

/-- Claim C4: for every entry the reader inspects, a plain file is ignored; a
subdirectory is classified as a transcript entry if and only if its
`metadata.json` is present and parses, and otherwise becomes a category
folder that is recursed into; a metadata parse failure only selects the
category branch — it never aborts the read (the reader is total). -/
theorem c4_library_reader_classification
    (parse : String → Option TranscriptMetadata) (rel : String)
    (rest : List FsTree) (name : String) (dentries : List FsTree) :
    (∀ (n c : String),
      readDir parse (FsTree.file n c :: rest) rel = readDir parse rest rel) ∧
    ((∃ m, (readFileIn dentries "metadata.json").bind parse = some m) →
      readDir parse (FsTree.dir name dentries :: rest) rel =
        FolderNode.mk name (if rel ≠ "" then rel ++ "/" ++ name else name)
          "transcript" none ((readFileIn dentries "metadata.json").bind parse)
          :: readDir parse rest rel) ∧
    ((readFileIn dentries "metadata.json").bind parse = none →
      readDir parse (FsTree.dir name dentries :: rest) rel =
        FolderNode.mk name (if rel ≠ "" then rel ++ "/" ++ name else name)
          "folder"
          (some (readDir parse dentries (if rel ≠ "" then rel ++ "/" ++ name else name)))
          none
          :: readDir parse rest rel) := by
  refine ⟨fun n c => by simp only [readDir], ?_, ?_⟩
  · rintro ⟨m, hm⟩
    simp only [readDir, hm]
  · intro hm
    simp only [readDir, hm]

/-- Claim C4, witness: with a concrete parser, a directory whose metadata
parses becomes a transcript entry; one whose metadata is malformed becomes a
category folder and is recursed into; a plain file produces no node. -/
theorem c4_witness :
    readDir sampleParse [FsTree.dir "ep1" entriesWithMetadata] "ai-podcasts" =
      [FolderNode.mk "ep1" "ai-podcasts/ep1" "transcript" none (some sampleMetadata)] ∧
    readDir sampleParse [FsTree.dir "cat" entriesWithBadMetadata] "" =
      [FolderNode.mk "cat" "cat" "folder"
        (some [FolderNode.mk "inner" "cat/inner" "folder" (some []) none]) none] ∧
    readDir sampleParse [FsTree.file "notes.txt" "x"] "" = [] := by
  refine ⟨?_, ?_, ?_⟩
  · have h := (c4_library_reader_classification sampleParse "ai-podcasts" []
      "ep1" entriesWithMetadata).2.1 ⟨sampleMetadata, rfl⟩
    rw [h]
    simp +decide [readDir, entriesWithMetadata, readFileIn, sampleParse]
  · have h := (c4_library_reader_classification sampleParse "" []
      "cat" entriesWithBadMetadata).2.2 rfl
    rw [h]
    simp +decide [readDir, entriesWithBadMetadata, readFileIn, sampleParse]
  · have h := (c4_library_reader_classification sampleParse "" []
      "x" []).1 "notes.txt" "x"
    rw [h]
    simp only [readDir]

theorem fdiv_two_natCast (k : Nat) : ((k : Nat) : Int).fdiv 2 = ((k / 2 : Nat) : Int) := by
  cases k with
  | zero => rfl
  | succ n => simp [Int.fdiv]

theorem jsClamp_natCast (len k : Nat) : jsClamp len ((k : Nat) : Int) = min k len := by
  unfold jsClamp
  split <;> omega

theorem jsClamp_neg (len c : Nat) (h0 : 0 < c) :
    jsClamp len (-(c : Int)) = len - c := by
  unfold jsClamp
  split <;> omega

theorem jsSlice_front (cs : List Char) (c : Nat) (h : c ≤ cs.length) :
    jsSlice cs 0 (c : Int) = cs.take c := by
  have h0 : jsClamp cs.length ((0 : Nat) : Int) = 0 := by
    rw [jsClamp_natCast]
    omega
  have hc : jsClamp cs.length ((c : Nat) : Int) = c := by
    rw [jsClamp_natCast]
    omega
  have e0 : ((0 : Nat) : Int) = (0 : Int) := rfl
  rw [jsSlice, ← e0, h0, hc, List.drop_zero]

theorem jsSlice_back (cs : List Char) (c : Nat) (h0 : 0 < c) :
    jsSlice cs (-(c : Int)) (cs.length : Int) = cs.drop (cs.length - c) := by
  have h1 : jsClamp cs.length (cs.length : Int) = cs.length := by
    rw [jsClamp_natCast]
    omega
  rw [jsSlice, h1, jsClamp_neg _ _ h0, List.take_length]

theorem jsSlice_mid (cs : List Char) (c : Nat) (h : c ≤ cs.length) :
    jsSlice cs (((cs.length : Int) - (c : Int)).fdiv 2)
      (((cs.length : Int) + (c : Int)).fdiv 2) =
      (cs.take ((cs.length + c) / 2)).drop ((cs.length - c) / 2) := by
  have e1 : (cs.length : Int) - (c : Int) = ((cs.length - c : Nat) : Int) := by omega
  have e2 : (cs.length : Int) + (c : Int) = ((cs.length + c : Nat) : Int) := by omega
  have f1 : ((cs.length - c : Nat) : Int).fdiv 2 = (((cs.length - c) / 2 : Nat) : Int) :=
    fdiv_two_natCast _
  have f2 : ((cs.length + c : Nat) : Int).fdiv 2 = (((cs.length + c) / 2 : Nat) : Int) :=
    fdiv_two_natCast _
  rw [jsSlice, e1, e2, f1, f2, jsClamp_natCast, jsClamp_natCast]
  have m1 : min ((cs.length - c) / 2) cs.length = (cs.length - c) / 2 := by omega
  have m2 : min ((cs.length + c) / 2) cs.length = (cs.length + c) / 2 := by omega
  rw [m1, m2]

/-- Claim C6: a text whose estimated token count is at most the ceiling is
returned unmodified; for a positive ceiling, a text over the ceiling becomes
the leading slice, the midpoint-centered slice and the trailing slice — each
of exactly `maxTokens * 4 / 3` characters — joined by the middle/later
omission markers, with total length `3 * (maxTokens * 4 / 3) + 55`, bounded
by `maxTokens * 4 + 55`. -/
theorem c6_truncation (text : String) (maxTokens : Nat) :
    (estimateTokens text ≤ maxTokens → truncateTranscript text maxTokens = text) ∧
    (0 < maxTokens → maxTokens < estimateTokens text →
      truncateTranscript text maxTokens =
        String.mk (text.data.take (maxTokens * 4 / 3) ++ midMarker.data ++
          (text.data.take ((text.length + maxTokens * 4 / 3) / 2)).drop
            ((text.length - maxTokens * 4 / 3) / 2) ++ laterMarker.data ++
          text.data.drop (text.length - maxTokens * 4 / 3)) ∧
      (text.data.take (maxTokens * 4 / 3)).length = maxTokens * 4 / 3 ∧
      ((text.data.take ((text.length + maxTokens * 4 / 3) / 2)).drop
        ((text.length - maxTokens * 4 / 3) / 2)).length = maxTokens * 4 / 3 ∧
      (text.data.drop (text.length - maxTokens * 4 / 3)).length = maxTokens * 4 / 3 ∧
      (truncateTranscript text maxTokens).length = 3 * (maxTokens * 4 / 3) + 55 ∧
      (truncateTranscript text maxTokens).length ≤ maxTokens * 4 + 55) := by
  constructor
  · intro h
    rw [truncateTranscript, if_pos h]
  · intro hM hover
    have hLen : text.length = text.data.length := rfl
    have hL : maxTokens * 4 < text.data.length := by
      rw [estimateTokens, hLen] at hover
      omega
    have hc0 : 0 < maxTokens * 4 / 3 := by omega
    have hcL : maxTokens * 4 / 3 ≤ text.data.length := by
      have := Nat.div_le_self (maxTokens * 4) 3
      omega
    have heq : truncateTranscript text maxTokens =
        String.mk (jsSlice text.data 0 ((maxTokens * 4 / 3 : Nat) : Int) ++ midMarker.data ++
          jsSlice text.data
            (((text.data.length : Int) - ((maxTokens * 4 / 3 : Nat) : Int)).fdiv 2)
            (((text.data.length : Int) + ((maxTokens * 4 / 3 : Nat) : Int)).fdiv 2) ++
          laterMarker.data ++
          jsSlice text.data (-((maxTokens * 4 / 3 : Nat) : Int)) (text.data.length : Int)) := by
      rw [truncateTranscript, if_neg (by omega)]
    rw [jsSlice_front _ _ hcL, jsSlice_mid _ _ hcL, jsSlice_back _ _ hc0] at heq
    have hmid : midMarker.data.length = 28 := by decide
    have hlater : laterMarker.data.length = 27 := by decide
    have hlen2 : (truncateTranscript text maxTokens).length = 3 * (maxTokens * 4 / 3) + 55 := by
      rw [heq]
      show (_ ++ _ ++ _ ++ _ ++ _ : List Char).length = _
      simp only [List.length_append, List.length_take, List.length_drop, hmid, hlater]
      omega
    refine ⟨by rw [heq, hLen], ?_, ?_, ?_, hlen2, ?_⟩
    · simp only [List.length_take]
      omega
    · simp only [List.length_drop, List.length_take, hLen]
      omega
    · simp only [List.length_drop]
      omega
    · rw [hlen2]
      have := Nat.div_le_self (maxTokens * 4) 3
      omega

/-- Claim C6, witness: a short text is returned unchanged; a nine-character
text over a ceiling of 1 token becomes three one-character excerpts joined by
the two markers, 58 characters in total. -/
theorem c6_witness :
    truncateTranscript "hi" 150000 = "hi" ∧
    (truncateTranscript "abcdefgh" 1).length = 3 * (1 * 4 / 3) + 55 := by
  constructor
  · exact (c6_truncation "hi" 150000).1 (by decide)
  · exact ((c6_truncation "abcdefgh" 1).2 (by decide) (by decide)).2.2.2.2.1

/-- Claim C7: the Tree Summarizer renders the synthetic root (indent `""`)
with no line for itself — an empty tree gives the empty string and the output
is independent of the root's own name — renders a transcript entry as a
marker line followed by its stored summary and theme path, and indents
category-folder children by a fixed two-space step per depth level. -/
theorem c7_tree_summarizer :
    (∀ name path,
      folderTreeToString (FolderNode.mk name path "folder" (some []) none) "" = "") ∧
    (∀ n1 p1 n2 p2 cs,
      folderTreeToString (FolderNode.mk n1 p1 "folder" (some cs) none) "" =
        folderTreeToString (FolderNode.mk n2 p2 "folder" (some cs) none) "") ∧
    (∀ name path md indent,
      folderTreeToString (FolderNode.mk name path "transcript" none (some md)) indent =
        String.intercalate "\n"
          [ indent ++ "📄 " ++ name
          , indent ++ "   Summary: " ++ md.theme.summary
          , indent ++ "   Theme: " ++ md.theme.primaryTheme ++ " > " ++ md.theme.subTheme ]) ∧
    (folderTreeToString
        (FolderNode.mk "transcripts" "/t" "folder"
          (some [FolderNode.mk "cat" "cat" "folder"
            (some [FolderNode.mk "sub" "cat/sub" "folder" (some []) none]) none]) none) "" =
      "  📁 cat/" ++ "\n" ++ "    📁 sub/") ∧
    (folderTreeToString libOneTranscript "" =
      "  📄 ep1" ++ "\n" ++ "     Summary: Discussion of AI safety" ++ "\n" ++
        "     Theme: ai-podcasts > ep1") := by
  refine ⟨fun name path => rfl, fun n1 p1 n2 p2 cs => ?_, fun name path md indent => ?_,
    by decide, by decide⟩
  · simp [folderTreeToString]
  · simp [folderTreeToString]

theorem classifyPrompt_children_cons (transcript videoUrl videoTitle : String)
    (lib : FolderNode) (c : FolderNode) (cs : List FolderNode)
    (h : lib.children = some (c :: cs)) :
    classifyPrompt transcript videoUrl videoTitle lib =
      incrementalPrompt videoUrl videoTitle
        (if folderTreeToString lib "" = ""
         then "(Empty - this will be the first transcript)"
         else folderTreeToString lib "")
        (truncateTranscript transcript 150000) := by
  simp [classifyPrompt, hasExistingTranscripts, h]

theorem classifyPrompt_children_empty (transcript videoUrl videoTitle : String)
    (lib : FolderNode) (h : lib.children = none ∨ lib.children = some []) :
    classifyPrompt transcript videoUrl videoTitle lib =
      bootstrapPrompt videoUrl videoTitle (truncateTranscript transcript 150000) := by
  rcases h with h | h <;> simp [classifyPrompt, hasExistingTranscripts, h]

set_option maxRecDepth 8000 in
/-- Claim C8, counterexample to the original statement: a library whose root
holds one empty category folder contains zero transcript entries, yet
`classifyAndOrganize` builds the incremental prompt, not the bootstrap one. -/
theorem c8_counterexample :
    transcriptCount libOneEmptyCategory = 0 ∧
    classifyPrompt "t" "u" "v" libOneEmptyCategory =
      incrementalPrompt "u" "v" (folderTreeToString libOneEmptyCategory "")
        (truncateTranscript "t" 150000) ∧
    classifyPrompt "t" "u" "v" libOneEmptyCategory ≠
      bootstrapPrompt "u" "v" (truncateTranscript "t" 150000) := by
  have hfts : folderTreeToString libOneEmptyCategory "" = "  📁 empty-cat/" := by decide
  refine ⟨?_, ?_, ?_⟩
  · simp [transcriptCount, transcriptCountChildren, libOneEmptyCategory]
  · rw [classifyPrompt_children_cons "t" "u" "v" libOneEmptyCategory
        (FolderNode.mk "empty-cat" "empty-cat" "folder" (some []) none) [] rfl,
      hfts, if_neg (by decide)]
  · rw [classifyPrompt_children_cons "t" "u" "v" libOneEmptyCategory
        (FolderNode.mk "empty-cat" "empty-cat" "folder" (some []) none) [] rfl,
      hfts, if_neg (by decide),
      show truncateTranscript "t" 150000 = "t" from rfl]
    decide

/-- Claim C8 (amended): the classifier builds the bootstrap prompt variant if
and only if the library root's children list is absent or empty, and the
incremental variant whenever the root has at least one child node — whether
or not any of those children contain transcript entries. -/
theorem c8_prompt_variant_amended (transcript videoUrl videoTitle : String)
    (lib : FolderNode) :
    ((lib.children = none ∨ lib.children = some []) →
      classifyPrompt transcript videoUrl videoTitle lib =
        bootstrapPrompt videoUrl videoTitle (truncateTranscript transcript 150000)) ∧
    (∀ c cs, lib.children = some (c :: cs) →
      classifyPrompt transcript videoUrl videoTitle lib =
        incrementalPrompt videoUrl videoTitle
          (if folderTreeToString lib "" = ""
           then "(Empty - this will be the first transcript)"
           else folderTreeToString lib "")
          (truncateTranscript transcript 150000)) :=
  ⟨classifyPrompt_children_empty transcript videoUrl videoTitle lib,
   fun c cs h => classifyPrompt_children_cons transcript videoUrl videoTitle lib c cs h⟩

/-- Claim C8, witness: an empty root gets the bootstrap prompt; a root with a
transcript-entry child gets the incremental prompt. -/
theorem c8_witness :
    classifyPrompt "t" "u" "v"
        (FolderNode.mk "transcripts" "/t" "folder" (some []) none) =
      bootstrapPrompt "u" "v" (truncateTranscript "t" 150000) ∧
    classifyPrompt "t" "u" "v" libOneTranscript =
      incrementalPrompt "u" "v"
        (if folderTreeToString libOneTranscript "" = ""
         then "(Empty - this will be the first transcript)"
         else folderTreeToString libOneTranscript "")
        (truncateTranscript "t" 150000) := by
  constructor
  · exact (c8_prompt_variant_amended "t" "u" "v" _).1 (Or.inr rfl)
  · exact (c8_prompt_variant_amended "t" "u" "v" libOneTranscript).2
      sampleTranscriptNode [] rfl

/-- Claim C10, witness: the record with empty `type` and `speaker_id` gets
`word` and `unknown`. -/
theorem c10_witness :
    (normalizeWord falsyRecord).type = "word" ∧
    (normalizeWord falsyRecord).speaker_id = "unknown" ∧
    (normalizeWord falsyRecord).type ≠ "" ∧
    (normalizeWord falsyRecord).speaker_id ≠ "" := by
  have h := c10_falsy_defaults falsyRecord
  exact ⟨h.1 rfl, h.2.1 rfl, h.2.2.1, h.2.2.2⟩

end Transcribee
